import Mathlib

/-!
Verification of the investing-score-card engine.

Shallow embedding of the scoring/valuation engine of
`custom_components/investing_score_card/engine.py` and of the offline CSV
scorer `scorecard.py`.  Python floats are modelled as exact rationals (ℚ);
Python `None` as `Option`; the external market-data source (yfinance) as an
oracle function handed to the snapshot builder, whose raised exceptions are
modelled as `Except.error`.  Python's built-in `round` (banker's rounding,
round-half-to-even) is modelled exactly by `round_half_even`.
-/

/-! ## Character/string helpers

Python's `str.upper`, `str.lower`, `str.strip`, `str.split(",")` and the
substring operator `in`, modelled over the character list of the string
(core `String.toUpper` etc. are well-founded recursions that the kernel
cannot evaluate, so we embed the loops structurally). -/

/-- Python `str.upper` (per-character upper-casing). -/
def str_upper (s : String) : String := ⟨s.data.map Char.toUpper⟩

/-- Python `str.lower` (per-character lower-casing). -/
def str_lower (s : String) : String := ⟨s.data.map Char.toLower⟩

/-- Python `str.strip`: drop whitespace from both ends. -/
def str_trim (s : String) : String :=
  ⟨((s.data.dropWhile Char.isWhitespace).reverse.dropWhile Char.isWhitespace).reverse⟩

/-- Helper loop for `split_commas`. -/
def split_commas_aux : List Char → List Char → List (List Char)
  | [], acc => [acc.reverse]
  | c :: rest, acc =>
      if c = ',' then acc.reverse :: split_commas_aux rest []
      else split_commas_aux rest (c :: acc)

/-- Python `s.split(",")`. -/
def split_commas (s : String) : List String :=
  (split_commas_aux s.data []).map (fun l => ⟨l⟩)

/-- Python substring test `sub in s`. -/
def str_has (s : String) (sub : String) : Bool :=
  s.data.tails.any (fun t => sub.data.isPrefixOf t)

/-! ## Rounding

Python's built-in `round(x, p)`: round `x * 10^p` to the nearest integer,
ties to the nearest even integer, and divide back. -/

/-- Round a rational to the nearest integer, ties to even (Python `round`). -/
def round_half_even (x : ℚ) : ℤ :=
  let f := ⌊x⌋
  let r := x - (f : ℚ)
  if r < 1/2 then f
  else if 1/2 < r then f + 1
  else if f % 2 = 0 then f else f + 1

/-- Python `round(x, p)` on rationals. -/
def round_to (p : ℕ) (x : ℚ) : ℚ :=
  ((round_half_even (x * 10 ^ p) : ℤ) : ℚ) / 10 ^ p

theorem floor_le_round_half_even (x : ℚ) : ⌊x⌋ ≤ round_half_even x := by
  unfold round_half_even
  dsimp only
  split_ifs <;> omega

theorem round_half_even_le (x : ℚ) : round_half_even x ≤ ⌊x⌋ + 1 := by
  unfold round_half_even
  dsimp only
  split_ifs <;> omega

theorem round_half_even_intCast (n : ℤ) : round_half_even ((n : ℚ)) = n := by
  unfold round_half_even
  dsimp only
  rw [Int.floor_intCast]
  norm_num

theorem round_to_gt (p : ℕ) (x : ℚ) : x - 1 / 10 ^ p < round_to p x := by
  unfold round_to
  have hfloor : x * 10 ^ p - 1 < (⌊x * 10 ^ p⌋ : ℚ) := by
    have := Int.sub_one_lt_floor (x * 10 ^ p)
    linarith
  have hle : (⌊x * 10 ^ p⌋ : ℚ) ≤ ((round_half_even (x * 10 ^ p) : ℤ) : ℚ) := by
    exact_mod_cast floor_le_round_half_even (x * 10 ^ p)
  have hpow : (0 : ℚ) < 10 ^ p := by positivity
  have hone : (1 / 10 ^ p : ℚ) * 10 ^ p = 1 := by field_simp
  rw [lt_div_iff₀ hpow]
  nlinarith

theorem round_to_nonneg (p : ℕ) (x : ℚ) (hx : 0 ≤ x) : 0 ≤ round_to p x := by
  unfold round_to
  have hpow : (0 : ℚ) < 10 ^ p := by positivity
  apply div_nonneg _ (le_of_lt hpow)
  have h0 : (0 : ℤ) ≤ ⌊x * 10 ^ p⌋ := by
    apply Int.floor_nonneg.mpr
    positivity
  have := floor_le_round_half_even (x * 10 ^ p)
  exact_mod_cast le_trans h0 this

theorem round_to_intCast (p : ℕ) (n : ℤ) : round_to p ((n : ℚ)) = n * (10 ^ p : ℚ) / 10 ^ p := by
  unfold round_to
  have h : ((n : ℚ)) * 10 ^ p = (((n * 10 ^ p : ℤ) : ℚ)) := by push_cast; ring
  rw [h, round_half_even_intCast]

theorem round_to_int_self (p : ℕ) (n : ℤ) : round_to p ((n : ℚ)) = n := by
  rw [round_to_intCast]
  have hpow : (10 ^ p : ℚ) ≠ 0 := by positivity
  field_simp

/-! ## Piecewise band scoring

Embeds both `_piecewise` (engine.py) and `piecewise_score` (scorecard.py),
which are identical: the value maps to the unit score of the first band
threshold it is at or below; if it exceeds every threshold, the last band's
score is returned.  On an empty band list the Python code raises IndexError;
the embedding returns 0 there (no caller, and no theorem, uses that case). -/

def piecewise_score (value : ℚ) : List (ℚ × ℚ) → ℚ
  | [] => 0
  | (t, s) :: rest =>
      if value ≤ t then s
      else
        match rest with
        | [] => s
        | _ :: _ => piecewise_score value rest

/-- Engine `_score_component_value`: unit band score times component weight. -/
def score_component_value (value : ℚ) (bands : List (ℚ × ℚ)) (weight : ℚ) : ℚ :=
  piecewise_score value bands * weight

/-- Offline `clamp`. -/
def clamp (value lo hi : ℚ) : ℚ := max lo (min hi value)

/-! ## Fixed band tables (identical in engine.py and scorecard.py) -/

def revenue_bands : List (ℚ × ℚ) :=
  [(-20, 0), (-10, 0.10), (0, 0.30), (5, 0.55), (10, 0.70), (15, 0.82), (25, 0.92), (10000, 1)]

def eps_bands : List (ℚ × ℚ) :=
  [(-40, 0), (-20, 0.10), (0, 0.30), (10, 0.55), (20, 0.72), (35, 0.85), (50, 0.94), (10000, 1)]

def margin_level_bands : List (ℚ × ℚ) :=
  [(0, 0), (5, 0.15), (10, 0.30), (15, 0.50), (20, 0.70), (25, 0.83), (30, 0.93), (10000, 1)]

def margin_yoy_bands : List (ℚ × ℚ) :=
  [(-8, 0), (-4, 0.12), (-2, 0.28), (0, 0.45), (1, 0.62), (2, 0.76), (4, 0.90), (10000, 1)]

def fcf_bands : List (ℚ × ℚ) :=
  [(-50, 0), (-25, 0.15), (-10, 0.32), (0, 0.50), (10, 0.66), (20, 0.80), (35, 0.92), (10000, 1)]

def leverage_bands : List (ℚ × ℚ) :=
  [(0, 1), (1, 0.88), (2, 0.72), (3, 0.52), (4, 0.30), (5, 0.15), (10000, 0)]

/-! ## Grade scale (engine `_grade` and scorecard `to_grade`, identical) -/

def grade_scale : List (ℚ × String) :=
  [(97, "A+"), (93, "A"), (90, "A-"), (87, "B+"), (83, "B"), (80, "B-"),
   (77, "C+"), (73, "C"), (70, "C-"), (67, "D+"), (63, "D"), (60, "D-")]

/-- First scale entry whose threshold the score reaches, else "F". -/
def to_grade (score : ℚ) : String :=
  match grade_scale.find? (fun p => p.1 ≤ score) with
  | some p => p.2
  | none => "F"

/-! ## Raw metrics and the live score calculator -/

/-- Bag of raw metrics produced by `_extract_financial_metrics` for one
ticker.  All numeric fields are optional; absence models Python `None`
(missing line item, unparseable or NaN value). -/
structure RawMetrics where
  sector : String := ""
  industry : String := ""
  price : Option ℚ := none
  trailing_pe : Option ℚ := none
  price_to_book : Option ℚ := none
  enterprise_to_ebitda : Option ℚ := none
  latest_period : String := ""
  prior_period : String := ""
  revenue_yoy_pct : Option ℚ := none
  eps_yoy_pct : Option ℚ := none
  op_margin_latest_pct : Option ℚ := none
  op_margin_prior_pct : Option ℚ := none
  fcf_yoy_pct : Option ℚ := none
  net_debt_to_ebitda : Option ℚ := none
  next_earnings_iso : String := ""
  next_earnings_ts : Option ℤ := none
deriving DecidableEq

/-- Result of the live `_compute_score`. -/
structure ScoreResult where
  score_total : ℚ
  grade : String
  components : List (String × ℚ)
  data_completeness_pct : ℚ
deriving DecidableEq

/-- Live `_compute_score` (engine.py).  Each optional metric contributes its
banded points and weight when present; the guidance component is awarded a
flat 12.0 points and its 25.0 weight unconditionally (no live signal
source).  The acc triples are (components, raw points, available weight),
concatenated/summed in the source's loop order. -/
def compute_score (m : RawMetrics) : ScoreResult :=
  let revPart : List (String × ℚ) × ℚ × ℚ :=
    match m.revenue_yoy_pct with
    | some rev =>
        let s := score_component_value rev revenue_bands 15
        ([("growth_revenue", round_to 1 s)], s, 15)
    | none => ([], 0, 0)
  let epsPart : List (String × ℚ) × ℚ × ℚ :=
    match m.eps_yoy_pct with
    | some eps =>
        let s := score_component_value eps eps_bands 15
        ([("growth_eps", round_to 1 s)], s, 15)
    | none => ([], 0, 0)
  let marginPart : List (String × ℚ) × ℚ × ℚ :=
    match m.op_margin_latest_pct, m.op_margin_prior_pct with
    | some om, some omp =>
        let s_lvl := score_component_value om margin_level_bands 12
        let s_yoy := score_component_value (om - omp) margin_yoy_bands 13
        ([("profit_margin_level", round_to 1 s_lvl), ("profit_margin_yoy", round_to 1 s_yoy)],
          s_lvl + s_yoy, 25)
    | _, _ => ([], 0, 0)
  -- Guidance fallback (without earnings call parsing) defaults to unchanged.
  let guidancePart : List (String × ℚ) × ℚ × ℚ := ([("guidance", 12)], 12, 25)
  let fcfPart : List (String × ℚ) × ℚ × ℚ :=
    match m.fcf_yoy_pct with
    | some fcf =>
        let s := score_component_value fcf fcf_bands 10
        ([("capital_fcf", round_to 1 s)], s, 10)
    | none => ([], 0, 0)
  let ndePart : List (String × ℚ) × ℚ × ℚ :=
    match m.net_debt_to_ebitda with
    | some nde =>
        let s := score_component_value nde leverage_bands 10
        ([("capital_leverage", round_to 1 s)], s, 10)
    | none => ([], 0, 0)
  let components :=
    revPart.1 ++ epsPart.1 ++ marginPart.1 ++ guidancePart.1 ++ fcfPart.1 ++ ndePart.1
  let raw_points :=
    revPart.2.1 + epsPart.2.1 + marginPart.2.1 + guidancePart.2.1 + fcfPart.2.1 + ndePart.2.1
  let available_weights :=
    revPart.2.2 + epsPart.2.2 + marginPart.2.2 + guidancePart.2.2 + fcfPart.2.2 + ndePart.2.2
  let total : ℚ :=
    if available_weights = 0 then 0 else min 100 (max 0 (raw_points / available_weights * 100))
  { score_total := round_to 1 total
    grade := to_grade total
    components := components
    data_completeness_pct := round_to 1 (available_weights / 100 * 100) }

/-! ## Claim C1 -/

/-- C1 counterexample: with every optional raw metric null, the live
`_compute_score` does NOT return score_total 0.0 and completeness 0; it
returns 48.0 and 25.0, because the flat guidance component (12 of 25) is
awarded unconditionally. -/
theorem C1_counterexample :
    (compute_score {}).score_total = 48 ∧
    (compute_score {}).data_completeness_pct = 25 ∧
    ¬((compute_score {}).score_total = 0 ∧ (compute_score {}).data_completeness_pct = 0) := by
  refine ⟨?_, ?_, ?_⟩
  · simp only [compute_score]
    norm_num [round_to, round_half_even]
  · simp only [compute_score]
    norm_num [round_to, round_half_even]
  · intro h
    have h1 := h.1
    simp only [compute_score] at h1
    norm_num [round_to, round_half_even] at h1

/-- C1 amended: with every optional raw metric input null, the live
`_compute_score` still awards the flat guidance component, so it returns
score_total 48.0, grade "F", data_completeness_pct 25.0, and the only
component is guidance with 12.0 points; the degenerate `score_total = 0.0`
branch requires zero evaluated weight, which the live path never reaches. -/
theorem C1_amended_all_null_score :
    (compute_score {}).score_total = 48 ∧
    (compute_score {}).grade = "F" ∧
    (compute_score {}).data_completeness_pct = 25 ∧
    (compute_score {}).components = [("guidance", 12)] := by
  refine ⟨?_, ?_, ?_, ?_⟩
  · simp only [compute_score]
    norm_num [round_to, round_half_even]
  · simp only [compute_score]
    norm_num [to_grade, grade_scale]
  · simp only [compute_score]
    norm_num [round_to, round_half_even]
  · simp [compute_score]

/-! ## Offline CSV scorer (scorecard.py)

One input row of the batch CSV tool.  A numeric field is `none` when the
CSV cell is blank (Python `has_value` false); `guidance_change` keeps its
raw string so that the blank test and the keyword mapping both apply to it
exactly as in the source. -/
structure CsvRow where
  prior_report_date : String := ""
  prior_report_url : String := ""
  guidance_change : String := ""
  revenue_yoy_pct : Option ℚ := none
  eps_yoy_pct : Option ℚ := none
  op_margin_latest_pct : Option ℚ := none
  op_margin_prior_pct : Option ℚ := none
  fcf_yoy_pct : Option ℚ := none
  net_debt_to_ebitda : Option ℚ := none
deriving DecidableEq

def score_growth_revenue_yoy (v : ℚ) : ℚ := piecewise_score v revenue_bands * 15

def score_growth_eps_yoy (v : ℚ) : ℚ := piecewise_score v eps_bands * 15

def score_profitability_margin_level (v : ℚ) : ℚ := piecewise_score v margin_level_bands * 12

def score_profitability_margin_yoy (v_pp : ℚ) : ℚ := piecewise_score v_pp margin_yoy_bands * 13

/-- Offline `score_guidance`: keyword map with default 12 points. -/
def score_guidance (v : String) : ℚ :=
  let key := str_lower (str_trim v)
  if key = "cut" then 0
  else if key = "lowered" then 0
  else if key = "unchanged" then 12
  else if key = "maintained" then 12
  else if key = "raised" then 25
  else 12

def score_fcf_yoy (v : ℚ) : ℚ := piecewise_score v fcf_bands * 10

def score_net_debt_to_ebitda (v : ℚ) : ℚ := piecewise_score v leverage_bands * 10

/-- Component accumulation of offline `compute_row`: the list of
(points, weight) pairs for the fields that are present; the guidance
component is included only when `guidance_change` is non-blank. -/
def csv_components (row : CsvRow) : List (ℚ × ℚ) :=
  (match row.revenue_yoy_pct with
    | some v => [(score_growth_revenue_yoy v, (15 : ℚ))]
    | none => []) ++
  (match row.eps_yoy_pct with
    | some v => [(score_growth_eps_yoy v, (15 : ℚ))]
    | none => []) ++
  (match row.op_margin_latest_pct, row.op_margin_prior_pct with
    | some a, some b =>
        [(score_profitability_margin_level a, (12 : ℚ)), (score_profitability_margin_yoy (a - b), (13 : ℚ))]
    | _, _ => []) ++
  (if str_trim row.guidance_change ≠ "" then [(score_guidance row.guidance_change, (25 : ℚ))] else []) ++
  (match row.fcf_yoy_pct with
    | some v => [(score_fcf_yoy v, (10 : ℚ))]
    | none => []) ++
  (match row.net_debt_to_ebitda with
    | some v => [(score_net_debt_to_ebitda v, (10 : ℚ))]
    | none => [])

/-- Offline total: empty marker (none, grade "N/A") when no component is
present, else raw points over max points times 100, clamped. -/
def csv_score_total (row : CsvRow) : Option ℚ :=
  let comps := csv_components row
  if comps = [] then none
  else
    let raw_points := (comps.map Prod.fst).sum
    let max_points := (comps.map Prod.snd).sum
    some (clamp (raw_points / max_points * 100) 0 100)

def csv_grade (row : CsvRow) : String :=
  match csv_score_total row with
  | none => "N/A"
  | some total => to_grade total

/-! ## Claim C2 -/

set_option maxHeartbeats 4000000 in
/-- C2: the live score calculator awards guidance a flat 12.0 points and
counts its full 25.0 weight in the evaluated-weight denominator on every
call, while the offline CSV scorer maps an explicit guidance_change keyword
(cut/lowered to 0, unchanged/maintained to 12, raised to 25) and excludes
the guidance weight entirely when that field is blank. -/
theorem C2_guidance_divergence :
    (∀ m : RawMetrics,
      ("guidance", (12 : ℚ)) ∈ (compute_score m).components ∧
      (compute_score m).data_completeness_pct =
        (if m.revenue_yoy_pct.isSome then 15 else 0) +
        (if m.eps_yoy_pct.isSome then 15 else 0) +
        (if m.op_margin_latest_pct.isSome ∧ m.op_margin_prior_pct.isSome then 25 else 0) +
        25 +
        (if m.fcf_yoy_pct.isSome then 10 else 0) +
        (if m.net_debt_to_ebitda.isSome then 10 else 0)) ∧
    (score_guidance "cut" = 0 ∧ score_guidance "lowered" = 0 ∧
      score_guidance "unchanged" = 12 ∧ score_guidance "maintained" = 12 ∧
      score_guidance "raised" = 25) ∧
    (∀ row : CsvRow, str_trim row.guidance_change = "" →
      (∀ p ∈ csv_components row, p.2 ≠ 25) ∧
      ((csv_components row).map Prod.snd).sum =
        (if row.revenue_yoy_pct.isSome then 15 else 0) +
        (if row.eps_yoy_pct.isSome then 15 else 0) +
        (if row.op_margin_latest_pct.isSome ∧ row.op_margin_prior_pct.isSome then 25 else 0) +
        (if row.fcf_yoy_pct.isSome then 10 else 0) +
        (if row.net_debt_to_ebitda.isSome then 10 else 0)) ∧
    (∀ row : CsvRow, str_trim row.guidance_change ≠ "" →
      (score_guidance row.guidance_change, (25 : ℚ)) ∈ csv_components row) := by
  refine ⟨?_, ?_, ?_, ?_⟩
  · intro m
    obtain ⟨sec, ind, price, tpe, pb, ev, lp, pp, rev, eps, oml, omp, fcf, nde, nei, nets⟩ := m
    constructor
    · rcases rev with _ | rev <;> rcases eps with _ | eps <;> rcases oml with _ | oml <;>
        rcases omp with _ | omp <;> rcases fcf with _ | fcf <;> rcases nde with _ | nde <;>
        simp [compute_score]
    · rcases rev with _ | rev <;> rcases eps with _ | eps <;> rcases oml with _ | oml <;>
        rcases omp with _ | omp <;> rcases fcf with _ | fcf <;> rcases nde with _ | nde <;>
        simp [compute_score] <;> norm_num [round_to, round_half_even]
  · refine ⟨by decide, by decide, by decide, by decide, by decide⟩
  · intro row h
    obtain ⟨prd, pru, gc, rev, eps, oml, omp, fcf, nde⟩ := row
    simp only [CsvRow.guidance_change] at h
    constructor
    · rcases rev with _ | rev <;> rcases eps with _ | eps <;> rcases oml with _ | oml <;>
        rcases omp with _ | omp <;> rcases fcf with _ | fcf <;> rcases nde with _ | nde <;>
        simp [csv_components, h] <;> norm_num
    · rcases rev with _ | rev <;> rcases eps with _ | eps <;> rcases oml with _ | oml <;>
        rcases omp with _ | omp <;> rcases fcf with _ | fcf <;> rcases nde with _ | nde <;>
        simp [csv_components, h] <;> norm_num
  · intro row h
    simp [csv_components, h]

/-- C2 witness: the theorem applied at concrete inputs. -/
theorem C2_witness :
    ("guidance", (12 : ℚ)) ∈ (compute_score {}).components ∧
    (∀ p ∈ csv_components {}, p.2 ≠ 25) ∧
    (score_guidance "raised", (25 : ℚ)) ∈ csv_components { guidance_change := "raised" } := by
  refine ⟨(C2_guidance_divergence.1 {}).1,
    (C2_guidance_divergence.2.2.1 {} ?_).1,
    C2_guidance_divergence.2.2.2 { guidance_change := "raised" } ?_⟩
  · decide
  · decide

/-! ## Claim C7: piecewise band function properties -/

theorem piecewise_result_mem (v : ℚ) (bands : List (ℚ × ℚ)) (h : bands ≠ []) :
    ∃ p ∈ bands, piecewise_score v bands = p.2 := by
  induction bands with
  | nil => simp at h
  | cons hd tl ih =>
    obtain ⟨t, s⟩ := hd
    by_cases hv : v ≤ t
    · exact ⟨(t, s), by simp, by simp [piecewise_score, hv]⟩
    · cases tl with
      | nil => exact ⟨(t, s), by simp, by simp [piecewise_score, hv]⟩
      | cons b bs =>
        obtain ⟨p, hp, he⟩ := ih (by simp)
        refine ⟨p, by simp [hp], ?_⟩
        simp only [piecewise_score, if_neg hv]
        exact he

theorem piecewise_last (v : ℚ) (bands : List (ℚ × ℚ)) (hne : bands ≠ [])
    (h : ∀ p ∈ bands, p.1 < v) : piecewise_score v bands = (bands.getLast hne).2 := by
  induction bands with
  | nil => simp at hne
  | cons hd tl ih =>
    obtain ⟨t, s⟩ := hd
    have hv : ¬ v ≤ t := not_le.mpr (h (t, s) (by simp))
    cases tl with
    | nil => simp [piecewise_score, hv, List.getLast]
    | cons b bs =>
      have htl := ih (by simp) (fun p hp => h p (by simp [hp]))
      simp only [piecewise_score, if_neg hv]
      rw [List.getLast_cons]
      exact htl

theorem piecewise_mono (bands : List (ℚ × ℚ)) (hs : bands.Pairwise (fun p q => p.2 ≤ q.2))
    (v w : ℚ) (hvw : v ≤ w) : piecewise_score v bands ≤ piecewise_score w bands := by
  induction bands with
  | nil => simp [piecewise_score]
  | cons hd tl ih =>
    obtain ⟨t, s⟩ := hd
    rw [List.pairwise_cons] at hs
    by_cases hv : v ≤ t
    · by_cases hw : w ≤ t
      · simp [piecewise_score, hv, hw]
      · cases tl with
        | nil => simp [piecewise_score, hv, hw]
        | cons b bs =>
          obtain ⟨p, hp, he⟩ := piecewise_result_mem w (b :: bs) (by simp)
          have hsp : s ≤ p.2 := hs.1 p hp
          simp only [piecewise_score, if_pos hv, if_neg hw]
          exact le_of_le_of_eq hsp he.symm
    · have hw : ¬ w ≤ t := fun hww => hv (le_trans hvw hww)
      cases tl with
      | nil => simp [piecewise_score, hv, hw]
      | cons b bs =>
        simp only [piecewise_score, if_neg hv, if_neg hw]
        exact ih hs.2

/-- C7: for every non-empty band list, a value at or below the first
threshold maps to the first pair's score; a value exceeding every threshold
maps to the last pair's score; and for ascending thresholds with
non-decreasing scores the result is non-decreasing in the value. -/
theorem C7_piecewise_bands (bands : List (ℚ × ℚ)) (hne : bands ≠ []) (v w : ℚ) :
    (v ≤ (bands.head hne).1 → piecewise_score v bands = (bands.head hne).2) ∧
    ((∀ p ∈ bands, p.1 < v) → piecewise_score v bands = (bands.getLast hne).2) ∧
    (bands.Pairwise (fun p q => p.1 < q.1) → bands.Pairwise (fun p q => p.2 ≤ q.2) →
      v ≤ w → piecewise_score v bands ≤ piecewise_score w bands) := by
  refine ⟨?_, fun h => piecewise_last v bands hne h,
    fun _ hs hvw => piecewise_mono bands hs v w hvw⟩
  cases bands with
  | nil => simp at hne
  | cons hd tl =>
    obtain ⟨t, s⟩ := hd
    intro hv
    simp only [List.head_cons] at hv ⊢
    simp [piecewise_score, hv]

/-- C7 witness: the theorem applied to a concrete two-band list. -/
theorem C7_witness :
    piecewise_score (-1) [((0 : ℚ), (1 : ℚ)), (10, 2)] = 1 ∧
    piecewise_score 11 [((0 : ℚ), (1 : ℚ)), (10, 2)] = 2 ∧
    piecewise_score (-1) [((0 : ℚ), (1 : ℚ)), (10, 2)] ≤
      piecewise_score 11 [((0 : ℚ), (1 : ℚ)), (10, 2)] := by
  have hA := C7_piecewise_bands [((0 : ℚ), (1 : ℚ)), (10, 2)] (by simp) (-1) 11
  have hB := C7_piecewise_bands [((0 : ℚ), (1 : ℚ)), (10, 2)] (by simp) 11 0
  refine ⟨?_, ?_, ?_⟩
  · simpa using hA.1 (by norm_num)
  · simpa using hB.2.1 (by intro p hp; fin_cases hp <;> norm_num)
  · exact hA.2.2 (by norm_num [List.pairwise_cons]) (by norm_num [List.pairwise_cons])
      (by norm_num)

/-! ## Claim C8: valuation label -/

/-- Engine `_valuation_label`: band [0.85, 1.15], widened to [0.75, 1.30]
for the two tech styles; boundaries inclusive; null ratio gives "N/A". -/
def valuation_label (ratio : Option ℚ) (style : String) : String :=
  match ratio with
  | none => "N/A"
  | some r =>
      let low : ℚ := if style = "tech_hypergrowth" ∨ style = "tech_quality" then 0.75 else 0.85
      let high : ℚ := if style = "tech_hypergrowth" ∨ style = "tech_quality" then 1.30 else 1.15
      if r ≤ low then "Undervalued"
      else if high ≤ r then "Overvalued"
      else "Fair"

/-- C8: the valuation label uses the inclusive band [0.85, 1.15] for every
style except tech_hypergrowth and tech_quality, which use [0.75, 1.30]:
ratio at or below the low boundary gives "Undervalued", at or above the
high boundary "Overvalued", strictly between "Fair"; null gives "N/A". -/
theorem C8_valuation_label_bands (style : String) (r : ℚ) :
    valuation_label none style = "N/A" ∧
    ((style = "tech_hypergrowth" ∨ style = "tech_quality") →
      (r ≤ 0.75 → valuation_label (some r) style = "Undervalued") ∧
      ((1.30 : ℚ) ≤ r → valuation_label (some r) style = "Overvalued") ∧
      ((0.75 : ℚ) < r → r < 1.30 → valuation_label (some r) style = "Fair")) ∧
    (¬(style = "tech_hypergrowth" ∨ style = "tech_quality") →
      (r ≤ 0.85 → valuation_label (some r) style = "Undervalued") ∧
      ((1.15 : ℚ) ≤ r → valuation_label (some r) style = "Overvalued") ∧
      ((0.85 : ℚ) < r → r < 1.15 → valuation_label (some r) style = "Fair")) := by
  refine ⟨rfl, ?_, ?_⟩
  · intro hsty
    refine ⟨?_, ?_, ?_⟩
    · intro hr
      simp [valuation_label, hsty, hr]
    · intro hr
      have hnl : ¬ r ≤ (0.75 : ℚ) := not_le.mpr (lt_of_lt_of_le (by norm_num) hr)
      simp [valuation_label, hsty, hnl, hr]
    · intro h1 h2
      simp [valuation_label, hsty, not_le.mpr h1, not_le.mpr h2]
  · intro hsty
    refine ⟨?_, ?_, ?_⟩
    · intro hr
      simp [valuation_label, hsty, hr]
    · intro hr
      have hnl : ¬ r ≤ (0.85 : ℚ) := not_le.mpr (lt_of_lt_of_le (by norm_num) hr)
      simp [valuation_label, hsty, hnl, hr]
    · intro h1 h2
      simp [valuation_label, hsty, not_le.mpr h1, not_le.mpr h2]

/-- C8 witness: boundary cases at concrete styles and ratios. -/
theorem C8_witness :
    valuation_label (some 0.85) "broad_market" = "Undervalued" ∧
    valuation_label (some 1.15) "broad_market" = "Overvalued" ∧
    valuation_label (some 0.75) "tech_quality" = "Undervalued" := by
  have h1 := (C8_valuation_label_bands "broad_market" 0.85).2.2 (by decide)
  have h2 := (C8_valuation_label_bands "broad_market" 1.15).2.2 (by decide)
  have h3 := (C8_valuation_label_bands "tech_quality" 0.75).2.1 (by decide)
  exact ⟨h1.1 le_rfl, h2.2.1 le_rfl, h3.1 le_rfl⟩

/-! ## Asset universe (engine.py) -/

/-- Engine `AssetConfig` dataclass. -/
structure AssetConfig where
  name : String
  ticker : String
  index_name : String
  benchmark : Bool := false
  valuation_ticker : Option String := none
  benchmark_fair_pe : Option ℚ := none
deriving DecidableEq

def DEFAULT_COMPANY_ASSETS : List AssetConfig :=
  [⟨"Nvidia", "NVDA", "S&P 500", false, none, none⟩,
   ⟨"Apple", "AAPL", "S&P 500", false, none, none⟩,
   ⟨"Microsoft", "MSFT", "S&P 500", false, none, none⟩,
   ⟨"Amazon", "AMZN", "S&P 500", false, none, none⟩,
   ⟨"Alphabet", "GOOGL", "S&P 500", false, none, none⟩,
   ⟨"Meta", "META", "S&P 500", false, none, none⟩,
   ⟨"Broadcom", "AVGO", "S&P 500", false, none, none⟩,
   ⟨"Tesla", "TSLA", "S&P 500", false, none, none⟩,
   ⟨"Berkshire Hathaway", "BRK-B", "S&P 500", false, none, none⟩,
   ⟨"Walmart", "WMT", "S&P 500", false, none, none⟩,
   ⟨"Eli Lilly", "LLY", "S&P 500", false, none, none⟩,
   ⟨"JPMorgan Chase", "JPM", "S&P 500", false, none, none⟩,
   ⟨"Visa", "V", "S&P 500", false, none, none⟩,
   ⟨"ExxonMobil", "XOM", "S&P 500", false, none, none⟩,
   ⟨"Johnson & Johnson", "JNJ", "S&P 500", false, none, none⟩,
   ⟨"Novo Nordisk", "NVO", "OMXC25", false, none, none⟩,
   ⟨"Nordea", "NDA-FI.HE", "OMXC25", false, none, none⟩,
   ⟨"DSV", "DSV.CO", "OMXC25", false, none, none⟩,
   ⟨"Danske Bank", "DANSKE.CO", "OMXC25", false, none, none⟩,
   ⟨"A.P. Moller - Maersk", "MAERSK-B.CO", "OMXC25", false, none, none⟩]

def DEFAULT_BENCHMARK_ASSETS : List AssetConfig :=
  [⟨"MSCI World ACWI (benchmark)", "ACWI", "Benchmark", true, some "ACWI", some 20⟩,
   ⟨"S&P 500 (benchmark)", "^GSPC", "Benchmark", true, some "SPY", some 21⟩,
   ⟨"OMXC25 (benchmark)", "^OMXC25", "Benchmark", true, some "XACTC25.CO", some 17.5⟩]

/-- Configuration handed to `_resolve_assets`.  Fields are optional: `none`
models a key absent from the Python settings dict. -/
structure Settings where
  list_mode : Option String := none
  custom_tickers : Option String := none
  include_benchmarks : Option Bool := none

/-- Loop of `_parse_custom_tickers`.  The Python `seen` set always equals
the set of already collected items, so membership in the accumulator is the
same test. -/
def parse_custom_tickers_aux : List String → List String → List String
  | [], acc => acc.reverse
  | part :: rest, acc =>
      let ticker := str_upper (str_trim part)
      if ticker = "" then parse_custom_tickers_aux rest acc
      else if ticker ∈ acc then parse_custom_tickers_aux rest acc
      else parse_custom_tickers_aux rest (ticker :: acc)

/-- Engine `_parse_custom_tickers`: split on comma, trim, upper-case, drop
empties, deduplicate preserving first-seen order. -/
def parse_custom_tickers (raw : String) : List String :=
  parse_custom_tickers_aux (split_commas raw) []

/-- Engine `_resolve_assets`.  Python reads the settings dict with defaults
(`"default"`, `""`, `True`), where falsy values (`None`, empty string) also
fall back to the default string. -/
def resolve_assets (settings : Settings) : List AssetConfig :=
  let list_mode :=
    str_lower (str_trim (match settings.list_mode with
      | none => "default"
      | some v => if v = "" then "default" else v))
  let include_benchmarks := settings.include_benchmarks.getD true
  let custom_tickers := parse_custom_tickers (match settings.custom_tickers with
    | none => ""
    | some v => v)
  let custom_assets := custom_tickers.map
    (fun ticker => { name := ticker, ticker := ticker, index_name := "Custom" : AssetConfig })
  let selected :=
    if list_mode = "custom" then custom_assets
    else if list_mode = "extend" then DEFAULT_COMPANY_ASSETS ++ custom_assets
    else DEFAULT_COMPANY_ASSETS
  if include_benchmarks then selected ++ DEFAULT_BENCHMARK_ASSETS else selected

/-! ## Valuation classifier and fair-value estimator (engine.py) -/

/-- Engine `_model_for_sector`. -/
def model_for_sector (sector industry : String) : String :=
  let s := str_lower sector
  let i := str_lower industry
  if str_has i "credit services" || str_has i "payment" then "pe"
  else if str_has s "financial" || str_has s "bank" || str_has s "insurance" then "pb"
  else if str_has s "energy" || str_has s "oil" || str_has s "gas" then "ev_ebitda"
  else if str_has s "industrial" || str_has s "transport" || str_has s "shipping" then "ev_ebitda"
  else "pe"

/-- Engine `_valuation_style`. -/
def valuation_style (sector industry : String) : String :=
  let s := str_lower sector
  let i := str_lower industry
  if str_has i "software" || str_has i "semiconductor" || str_has i "internet" then
    "tech_hypergrowth"
  else if str_has s "technology" || str_has i "electronic" then "tech_quality"
  else if str_has s "financial" || str_has s "bank" || str_has s "insurance" then "financials"
  else if str_has s "energy" || str_has i "oil" || str_has i "gas" then "energy"
  else if str_has s "industrial" || str_has s "transport" || str_has i "shipping" then
    "industrials"
  else if str_has s "healthcare" || str_has i "pharmaceutical" || str_has i "drug" then
    "healthcare"
  else "broad_market"

/-- Engine `_fair_multiple`. -/
def fair_multiple (score : ℚ) (model style : String) (bench_fair_pe : Option ℚ) : ℚ :=
  match bench_fair_pe, model == "pe" with
  | some b, true => b
  | _, _ =>
    if model = "pe" ∧ style = "tech_hypergrowth" then 14 + score * 0.42
    else if model = "pe" ∧ style = "tech_quality" then 11 + score * 0.34
    else if model = "pe" ∧ style = "healthcare" then 9 + score * 0.30
    else if model = "pe" then 7 + score * 0.26
    else if model = "pb" then 0.6 + score * 0.018
    else if model = "ev_ebitda" then 3 + score * 0.11
    else 10

/-- Display form of the model tag: `model.upper().replace("_", "/")`. -/
def model_display (model : String) : String :=
  ⟨(str_upper model).data.map (fun c => if c = '_' then '/' else c)⟩

/-- Positivity filter applied to each trailing multiple: a value at or
below zero is treated as unavailable. -/
def pos_or_none (x : Option ℚ) : Option ℚ :=
  match x with
  | some v => if v ≤ 0 then none else some v
  | none => none

/-- Model selection with fallback: the selected model's multiple if
available, else the first available of P/E, P/B, EV/EBITDA with the model
tag overridden to match; none when no multiple is available. -/
def select_model_actual (model0 : String) (trailing_pe pb ev_ebitda : Option ℚ) :
    String × Option ℚ :=
  let actual0 := if model0 = "pe" then trailing_pe else if model0 = "pb" then pb else ev_ebitda
  match actual0 with
  | some a => (model0, some a)
  | none =>
    match trailing_pe, pb, ev_ebitda with
    | some v, _, _ => ("pe", some v)
    | none, some v, _ => ("pb", some v)
    | none, none, some v => ("ev_ebitda", some v)
    | none, none, none => (model0, none)

/-- The Python pattern `(a / f) if a is not None and f > 0 else None` used
for the multiple ratio in both the company and the benchmark path. -/
def ratio_of (actual : Option ℚ) (fair : ℚ) : Option ℚ :=
  match actual with
  | some a => if 0 < fair then some (a / fair) else none
  | none => none

/-! ## Per-asset rows -/

/-- Rounded display metrics sub-dict of a company row. -/
structure RowMetrics where
  revenue_yoy_pct : Option ℚ := none
  eps_yoy_pct : Option ℚ := none
  op_margin_latest_pct : Option ℚ := none
  op_margin_prior_pct : Option ℚ := none
  fcf_yoy_pct : Option ℚ := none
  net_debt_to_ebitda : Option ℚ := none
deriving DecidableEq

/-- One asset row of the snapshot.  Keys a placeholder row does not carry in
Python (read back via dict.get, yielding None) are modelled by their
defaults here. -/
structure AssetRow where
  name : String := ""
  ticker : String := ""
  index_name : String := ""
  benchmark : Bool := false
  latest_period : String := ""
  prior_period : String := ""
  sector : String := ""
  industry : String := ""
  price : Option ℚ := none
  valuation_model : String := ""
  valuation_style : String := ""
  actual_multiple : Option ℚ := none
  fair_multiple : Option ℚ := none
  multiple_ratio : Option ℚ := none
  fair_price : Option ℚ := none
  valuation_gap_pct : Option ℚ := none
  assessment : String := "N/A"
  opportunity_score : ℚ := 0
  score_total : Option ℚ := none
  grade : String := "N/A"
  data_completeness_pct : Option ℚ := none
  components : List (String × ℚ) := []
  metrics : RowMetrics := {}
  next_earnings_iso : String := ""
  next_earnings_ts : Option ℤ := none
  error : Option String := none
deriving DecidableEq

/-- Engine `_compute_company`, applied to the raw metrics the extractor
returned for the asset's ticker (the network call is the oracle input). -/
def compute_company (asset : AssetConfig) (m : RawMetrics) : AssetRow :=
  let score := compute_score m
  let model0 := model_for_sector m.sector m.industry
  let style := valuation_style m.sector m.industry
  let trailing_pe := pos_or_none m.trailing_pe
  let pb := pos_or_none m.price_to_book
  let ev_ebitda := pos_or_none m.enterprise_to_ebitda
  let ma := select_model_actual model0 trailing_pe pb ev_ebitda
  let model := ma.1
  let actual_mult := ma.2
  let fair_mult := fair_multiple score.score_total model style none
  let ratio := ratio_of actual_mult fair_mult
  let fair_price := match ratio, m.price with
    | some rt, some p => if 0 < rt then some (p / rt) else none
    | _, _ => none
  let valuation_gap_pct := match fair_price, m.price with
    | some fp, some p => if p = 0 then none else some ((fp / p - 1) * 100)
    | _, _ => none
  let assessment := valuation_label ratio style
  let rank_bonus : ℚ := if assessment = "Undervalued" then 30
    else if assessment = "Fair" then 10 else -20
  let opportunity_score := score.score_total + rank_bonus
  { name := asset.name
    ticker := asset.ticker
    index_name := asset.index_name
    benchmark := false
    latest_period := m.latest_period
    prior_period := m.prior_period
    sector := m.sector
    industry := m.industry
    price := m.price.map (round_to 2)
    valuation_model := model_display model
    valuation_style := style
    actual_multiple := actual_mult.map (round_to 2)
    fair_multiple := some (round_to 2 fair_mult)
    multiple_ratio := ratio.map (round_to 2)
    fair_price := fair_price.map (round_to 2)
    valuation_gap_pct := valuation_gap_pct.map (round_to 1)
    assessment := assessment
    opportunity_score := round_to 1 opportunity_score
    score_total := some score.score_total
    grade := score.grade
    data_completeness_pct := some score.data_completeness_pct
    components := score.components
    metrics :=
      { revenue_yoy_pct := m.revenue_yoy_pct.map (round_to 1)
        eps_yoy_pct := m.eps_yoy_pct.map (round_to 1)
        op_margin_latest_pct := m.op_margin_latest_pct.map (round_to 1)
        op_margin_prior_pct := m.op_margin_prior_pct.map (round_to 1)
        fcf_yoy_pct := m.fcf_yoy_pct.map (round_to 1)
        net_debt_to_ebitda := m.net_debt_to_ebitda.map (round_to 2) }
    next_earnings_iso := m.next_earnings_iso
    next_earnings_ts := m.next_earnings_ts
    error := none }

/-- Market data the benchmark path fetches: last close of the 5-day price
history (none when the history is empty) and the trailing P/E of the
valuation proxy ticker (already float-coerced, pre positivity filter). -/
structure BenchData where
  price : Option ℚ := none
  trailing_pe : Option ℚ := none
deriving DecidableEq

/-- Engine `_compute_benchmark` over the fetched benchmark data.  Python's
`asset.benchmark_fair_pe or 20.0` maps a missing or zero override to 20. -/
def compute_benchmark (asset : AssetConfig) (b : BenchData) : AssetRow :=
  let price := b.price
  let pe := pos_or_none b.trailing_pe
  let fair : ℚ := match asset.benchmark_fair_pe with
    | some v => if v = 0 then 20 else v
    | none => 20
  let ratio := ratio_of pe fair
  let fair_price := match ratio, price with
    | some rt, some p => if p = 0 then none else some (p / rt)
    | _, _ => none
  let valuation_gap_pct := match fair_price, price with
    | some fp, some p => if p = 0 then none else some ((fp / p - 1) * 100)
    | _, _ => none
  let assessment := valuation_label ratio "broad_market"
  { name := asset.name
    ticker := asset.ticker
    index_name := asset.index_name
    benchmark := true
    latest_period := ""
    prior_period := ""
    sector := "Broad Market Index"
    industry := "Diversified"
    price := price.map (round_to 2)
    valuation_model := "PE"
    valuation_style := "broad_market"
    actual_multiple := pe.map (round_to 2)
    fair_multiple := some (round_to 2 fair)
    multiple_ratio := ratio.map (round_to 2)
    fair_price := fair_price.map (round_to 2)
    valuation_gap_pct := valuation_gap_pct.map (round_to 1)
    assessment := assessment
    opportunity_score := 0
    score_total := none
    grade := "N/A"
    data_completeness_pct := none
    components := []
    metrics := {}
    next_earnings_iso := ""
    next_earnings_ts := none
    error := none }

/-- Placeholder row emitted by `build_snapshot` when computing one asset
raises; carries the error text and sentinel ranking value. -/
def placeholder_row (asset : AssetConfig) (err : String) : AssetRow :=
  { name := asset.name
    ticker := asset.ticker
    index_name := asset.index_name
    benchmark := asset.benchmark
    price := none
    assessment := "N/A"
    error := some err
    components := []
    metrics := {}
    score_total := none
    grade := "N/A"
    opportunity_score := -999 }

/-! ## Snapshot assembly (engine `build_snapshot`) -/

/-- The external market-data source: per ticker the raw company metrics, and
per benchmark asset its price/PE data.  `Except.error e` models any
exception raised while computing that asset's row (the message is the
stringified exception); `now_iso` is the ambient clock reading used for the
snapshot's generated_at stamp. -/
structure DataSource where
  company : String → Except String RawMetrics
  bench : AssetConfig → Except String BenchData
  now_iso : String := ""

/-- Dispatch of one asset to the benchmark or company path. -/
def compute_row_e (ds : DataSource) (asset : AssetConfig) : Except String AssetRow :=
  if asset.benchmark then (ds.bench asset).map (compute_benchmark asset)
  else (ds.company asset.ticker).map (compute_company asset)

/-- Per-asset loop of `build_snapshot`: one row per resolved descriptor, a
placeholder on exception. -/
def snapshot_assets (settings : Settings) (ds : DataSource) : List AssetRow :=
  (resolve_assets settings).map (fun asset =>
    match compute_row_e ds asset with
    | Except.ok row => row
    | Except.error e => placeholder_row asset e)

/-- Sort key of the opportunity ranking: (opportunity_score, score_total or
0), compared descending. -/
def rank_key (r : AssetRow) : ℚ × ℚ := (r.opportunity_score, r.score_total.getD 0)

/-- Descending lexicographic order on rank keys, the order of Python's
`sorted(..., reverse=True)` over the key tuples. -/
def rank_ge (x y : AssetRow) : Prop :=
  (rank_key y).1 < (rank_key x).1 ∨
    ((rank_key y).1 = (rank_key x).1 ∧ (rank_key y).2 ≤ (rank_key x).2)

instance : DecidableRel rank_ge := fun x y => by
  unfold rank_ge
  infer_instance

instance : IsTotal AssetRow rank_ge := ⟨by
  intro x y
  unfold rank_ge
  rcases lt_trichotomy (rank_key x).1 (rank_key y).1 with h | h | h
  · exact Or.inr (Or.inl h)
  · rcases le_total (rank_key y).2 (rank_key x).2 with h2 | h2
    · exact Or.inl (Or.inr ⟨h.symm, h2⟩)
    · exact Or.inr (Or.inr ⟨h, h2⟩)
  · exact Or.inl (Or.inl h)⟩

instance : IsTrans AssetRow rank_ge := ⟨by
  intro a b c hab hbc
  unfold rank_ge at *
  rcases hab with h | ⟨h1, h2⟩ <;> rcases hbc with g | ⟨g1, g2⟩
  · exact Or.inl (lt_trans g h)
  · exact Or.inl (lt_of_eq_of_lt g1 h)
  · exact Or.inl (lt_of_lt_of_eq g (h1.symm ▸ rfl))
  · exact Or.inr ⟨g1.trans h1, g2.trans h2⟩⟩

/-- Ranked non-benchmark rows, best first (stable sort, as Python's). -/
def ranked_rows (assets : List AssetRow) : List AssetRow :=
  List.insertionSort rank_ge (assets.filter (fun a => !a.benchmark))

/-- Projection of a row into the upcoming-earnings list. -/
structure UpcomingEntry where
  company : String := ""
  ticker : String := ""
  index_name : String := ""
  next_earnings_iso : String := ""
  next_earnings_ts : Option ℤ := none
  assessment : String := ""
  price : Option ℚ := none
  fair_price : Option ℚ := none
  score_total : Option ℚ := none
  grade : String := ""
  opportunity_score : ℚ := 0
  valuation_model : String := ""
  multiple_ratio : Option ℚ := none
  components : List (String × ℚ) := []
  metrics : RowMetrics := {}
deriving DecidableEq

def to_upcoming (a : AssetRow) : UpcomingEntry :=
  { company := a.name
    ticker := a.ticker
    index_name := a.index_name
    next_earnings_iso := a.next_earnings_iso
    next_earnings_ts := a.next_earnings_ts
    assessment := a.assessment
    price := a.price
    fair_price := a.fair_price
    score_total := a.score_total
    grade := a.grade
    opportunity_score := a.opportunity_score
    valuation_model := a.valuation_model
    multiple_ratio := a.multiple_ratio
    components := a.components
    metrics := a.metrics }

/-- Ascending order on next-earnings timestamps (missing treated as 0). -/
def earn_le (x y : UpcomingEntry) : Prop :=
  x.next_earnings_ts.getD 0 ≤ y.next_earnings_ts.getD 0

instance : DecidableRel earn_le := fun x y => by
  unfold earn_le
  infer_instance

structure SettingsEcho where
  list_mode : String
  custom_tickers : String
  include_benchmarks : Bool
deriving DecidableEq

structure Summary where
  undervalued : ℕ
  fair : ℕ
  overvalued : ℕ
  na : ℕ
deriving DecidableEq

structure Snapshot where
  generated_at : String
  settings : SettingsEcho
  assets : List AssetRow
  top_opportunities : List AssetRow
  upcoming_earnings_next_5 : List UpcomingEntry
  summary : Summary

/-- Engine `build_snapshot`: full snapshot for all resolved assets. -/
def build_snapshot (settings : Settings) (ds : DataSource) : Snapshot :=
  let assets := snapshot_assets settings ds
  let ranked := ranked_rows assets
  let top := ranked.take 10
  let upcoming := List.insertionSort earn_le
    ((assets.filter (fun a => !a.benchmark && a.next_earnings_ts.isSome)).map to_upcoming)
  let next_5 := upcoming.take 5
  { generated_at := ds.now_iso
    settings :=
      { list_mode := settings.list_mode.getD "default"
        custom_tickers := settings.custom_tickers.getD ""
        include_benchmarks := settings.include_benchmarks.getD true }
    assets := assets
    top_opportunities := top
    upcoming_earnings_next_5 := next_5
    summary :=
      { undervalued := assets.countP (fun a => a.assessment == "Undervalued")
        fair := assets.countP (fun a => a.assessment == "Fair")
        overvalued := assets.countP (fun a => a.assessment == "Overvalued")
        na := assets.countP (fun a => a.assessment == "N/A") } }

/-! ## Claim C9 -/

/-- Settings of the C9 scenario with include_benchmarks left unset
(Python default true). -/
def c9_settings_default : Settings :=
  { list_mode := some "custom", custom_tickers := some "ABC,ABC, xyz" }

/-- Settings of the C9 scenario with include_benchmarks=false. -/
def c9_settings_no_bench : Settings :=
  { list_mode := some "custom", custom_tickers := some "ABC,ABC, xyz",
    include_benchmarks := some false }

/-- C9 counterexample: with only list_mode=custom and
custom_tickers="ABC,ABC, xyz" configured, `include_benchmarks` defaults to
true, so `_resolve_assets` appends the three benchmark descriptors and
yields five descriptors, not two. -/
theorem C9_counterexample : (resolve_assets c9_settings_default).length ≠ 2 := by
  decide

/-- C9 amended: with list_mode=custom, custom_tickers="ABC,ABC, xyz" and
include_benchmarks=false, the resolver yields exactly the two descriptors
["ABC", "XYZ"] in that order, each with name equal to its ticker and index
label "Custom"; leaving include_benchmarks at its default true appends the
three fixed benchmark descriptors after those two. -/
theorem C9_amended_resolver :
    resolve_assets c9_settings_no_bench =
      [{ name := "ABC", ticker := "ABC", index_name := "Custom" },
       { name := "XYZ", ticker := "XYZ", index_name := "Custom" }] ∧
    resolve_assets c9_settings_default =
      [{ name := "ABC", ticker := "ABC", index_name := "Custom" },
       { name := "XYZ", ticker := "XYZ", index_name := "Custom" }] ++
        DEFAULT_BENCHMARK_ASSETS :=
  ⟨rfl, rfl⟩

/-! ## Support lemmas for the snapshot claims -/

theorem compute_score_total_nonneg (m : RawMetrics) : 0 ≤ (compute_score m).score_total := by
  simp only [compute_score]
  apply round_to_nonneg
  split_ifs with h
  · exact le_refl 0
  · exact le_min (by norm_num) (le_max_left 0 _)

theorem fair_multiple_pos (score : ℚ) (model style : String) (h : 0 ≤ score) :
    (3/5 : ℚ) ≤ fair_multiple score model style none := by
  unfold fair_multiple
  cases hm : model == "pe" <;> dsimp only <;> split_ifs <;> nlinarith [h]

theorem round_to_two_pos (F : ℚ) (h : (3/5 : ℚ) ≤ F) : 0 < round_to 2 F := by
  have := round_to_gt 2 F
  norm_num at this ⊢
  linarith

theorem valuation_label_na_iff (ratio : Option ℚ) (style : String) :
    valuation_label ratio style = "N/A" ↔ ratio = none := by
  cases ratio with
  | none => simp [valuation_label]
  | some r =>
    simp only [valuation_label]
    constructor
    · intro h
      split_ifs at h <;> exact absurd h (by decide)
    · intro h
      exact absurd h (by simp)

theorem valuation_label_mem (ratio : Option ℚ) (style : String) :
    valuation_label ratio style = "Undervalued" ∨ valuation_label ratio style = "Fair" ∨
      valuation_label ratio style = "Overvalued" ∨ valuation_label ratio style = "N/A" := by
  cases ratio with
  | none => right; right; right; rfl
  | some r =>
    simp only [valuation_label]
    split_ifs <;> simp

theorem default_company_not_benchmark : ∀ a ∈ DEFAULT_COMPANY_ASSETS, a.benchmark = false := by
  decide

theorem resolve_assets_benchmark_mem (settings : Settings) (a : AssetConfig)
    (ha : a ∈ resolve_assets settings) (hb : a.benchmark = true) :
    a ∈ DEFAULT_BENCHMARK_ASSETS := by
  have hcust : ∀ l : List String, a ∈ l.map (fun ticker =>
      ({ name := ticker, ticker := ticker, index_name := "Custom" } : AssetConfig)) → False := by
    intro l hl
    obtain ⟨t, _, rfl⟩ := List.mem_map.mp hl
    simp at hb
  have hdca : a ∈ DEFAULT_COMPANY_ASSETS → False := by
    intro h
    rw [default_company_not_benchmark a h] at hb
    exact Bool.false_ne_true hb
  unfold resolve_assets at ha
  dsimp only at ha
  split_ifs at ha <;>
    (try simp only [List.mem_append] at ha) <;>
    first
      | exact absurd ha (hcust _)
      | exact absurd ha hdca
      | (rcases ha with ha | ha
         · first
             | exact absurd ha (hcust _)
             | exact absurd ha hdca
             | (rcases ha with ha | ha
                · first
                    | exact absurd ha (hcust _)
                    | exact absurd ha hdca
                · exact absurd ha (hcust _))
         · first
             | exact ha
             | exact absurd ha (hcust _))

theorem snapshot_assets_cases (settings : Settings) (ds : DataSource) (r : AssetRow)
    (hr : r ∈ snapshot_assets settings ds) :
    (∃ asset e, asset ∈ resolve_assets settings ∧ r = placeholder_row asset e) ∨
    (∃ asset m, asset ∈ resolve_assets settings ∧ asset.benchmark = false ∧
      r = compute_company asset m) ∨
    (∃ asset b, asset ∈ resolve_assets settings ∧ asset.benchmark = true ∧
      r = compute_benchmark asset b) := by
  unfold snapshot_assets at hr
  obtain ⟨asset, hmem, heq⟩ := List.mem_map.mp hr
  unfold compute_row_e at heq
  cases hb : asset.benchmark with
  | true =>
    rw [hb] at heq
    simp only [if_true] at heq
    cases hd : ds.bench asset with
    | ok bd =>
      rw [hd] at heq
      simp only [Except.map] at heq
      exact Or.inr (Or.inr ⟨asset, bd, hmem, hb, heq.symm⟩)
    | error e =>
      rw [hd] at heq
      simp only [Except.map] at heq
      exact Or.inl ⟨asset, e, hmem, heq.symm⟩
  | false =>
    rw [hb] at heq
    simp only [Bool.false_eq_true, if_false] at heq
    cases hd : ds.company asset.ticker with
    | ok m =>
      rw [hd] at heq
      simp only [Except.map] at heq
      exact Or.inr (Or.inl ⟨asset, m, hmem, hb, heq.symm⟩)
    | error e =>
      rw [hd] at heq
      simp only [Except.map] at heq
      exact Or.inl ⟨asset, e, hmem, heq.symm⟩

/-! ## Claim C3 -/

theorem c3_generic (am : Option ℚ) (F : ℚ) (style : String) (hF : 0 < F)
    (hFr : 0 < round_to 2 F) :
    ((ratio_of am F).map (round_to 2) ≠ none ↔
      (am.map (round_to 2) ≠ none ∧
        ∃ f, (some (round_to 2 F) : Option ℚ) = some f ∧ 0 < f)) ∧
    (valuation_label (ratio_of am F) style = "N/A" ↔ (ratio_of am F).map (round_to 2) = none) := by
  constructor
  · cases am <;> simp [ratio_of, hF, hFr]
  · rw [valuation_label_na_iff]
    cases am <;> simp [ratio_of, hF]

theorem compute_company_c3 (asset : AssetConfig) (m : RawMetrics) :
    ((compute_company asset m).multiple_ratio ≠ none ↔
      ((compute_company asset m).actual_multiple ≠ none ∧
        ∃ f, (compute_company asset m).fair_multiple = some f ∧ 0 < f)) ∧
    ((compute_company asset m).assessment = "N/A" ↔
      (compute_company asset m).multiple_ratio = none) := by
  simp only [compute_company]
  refine c3_generic _ _ _ ?_ ?_
  · exact lt_of_lt_of_le (by norm_num)
      (fair_multiple_pos _ _ _ (compute_score_total_nonneg m))
  · exact round_to_two_pos _ (fair_multiple_pos _ _ _ (compute_score_total_nonneg m))

theorem bench_fair_of_mem (asset : AssetConfig) (h : asset ∈ DEFAULT_BENCHMARK_ASSETS) :
    asset.benchmark_fair_pe = some 20 ∨ asset.benchmark_fair_pe = some 21 ∨
      asset.benchmark_fair_pe = some 17.5 := by
  fin_cases h
  · exact Or.inl rfl
  · exact Or.inr (Or.inl rfl)
  · exact Or.inr (Or.inr rfl)

theorem bench_fair_ge (asset : AssetConfig) (h : asset ∈ DEFAULT_BENCHMARK_ASSETS) :
    (3/5 : ℚ) ≤ (match asset.benchmark_fair_pe with
      | some v => if v = 0 then 20 else v
      | none => 20) := by
  rcases bench_fair_of_mem asset h with h1 | h1 | h1 <;> rw [h1] <;> norm_num

theorem compute_benchmark_c3 (asset : AssetConfig) (b : BenchData)
    (h : asset ∈ DEFAULT_BENCHMARK_ASSETS) :
    ((compute_benchmark asset b).multiple_ratio ≠ none ↔
      ((compute_benchmark asset b).actual_multiple ≠ none ∧
        ∃ f, (compute_benchmark asset b).fair_multiple = some f ∧ 0 < f)) ∧
    ((compute_benchmark asset b).assessment = "N/A" ↔
      (compute_benchmark asset b).multiple_ratio = none) := by
  simp only [compute_benchmark]
  refine c3_generic _ _ _ ?_ ?_
  · exact lt_of_lt_of_le (by norm_num) (bench_fair_ge asset h)
  · exact round_to_two_pos _ (bench_fair_ge asset h)

/-- C3: for every asset row produced by a snapshot (company, benchmark or
placeholder), multiple_ratio is non-null iff actual_multiple is non-null
and fair_multiple is strictly positive, and assessment is "N/A" iff
multiple_ratio is null. -/
theorem C3_ratio_assessment_iff (settings : Settings) (ds : DataSource) (r : AssetRow)
    (hr : r ∈ (build_snapshot settings ds).assets) :
    (r.multiple_ratio ≠ none ↔
      (r.actual_multiple ≠ none ∧ ∃ f, r.fair_multiple = some f ∧ 0 < f)) ∧
    (r.assessment = "N/A" ↔ r.multiple_ratio = none) := by
  have hr' : r ∈ snapshot_assets settings ds := by
    simpa [build_snapshot] using hr
  rcases snapshot_assets_cases settings ds r hr' with
    ⟨asset, e, _, rfl⟩ | ⟨asset, m, _, _, rfl⟩ | ⟨asset, b, hmem, hb, rfl⟩
  · simp [placeholder_row]
  · exact compute_company_c3 asset m
  · exact compute_benchmark_c3 asset b (resolve_assets_benchmark_mem settings asset hmem hb)

/-- Scenario data shared by the snapshot witnesses: one custom asset whose
computation fails. -/
def c3_settings : Settings :=
  { list_mode := some "custom", custom_tickers := some "AAA",
    include_benchmarks := some false }

def c3_ds : DataSource :=
  { company := fun _ => Except.error "boom", bench := fun _ => Except.error "boom" }

def c3_row : AssetRow :=
  placeholder_row { name := "AAA", ticker := "AAA", index_name := "Custom" } "boom"

theorem c3_row_mem : c3_row ∈ (build_snapshot c3_settings c3_ds).assets := by
  rw [show (build_snapshot c3_settings c3_ds).assets = [c3_row] from rfl]
  exact List.mem_singleton_self _

/-- C3 witness: the theorem applied to the placeholder row of the concrete
failing snapshot. -/
theorem C3_witness :
    (c3_row.multiple_ratio ≠ none ↔
      (c3_row.actual_multiple ≠ none ∧ ∃ f, c3_row.fair_multiple = some f ∧ 0 < f)) ∧
    (c3_row.assessment = "N/A" ↔ c3_row.multiple_ratio = none) :=
  C3_ratio_assessment_iff c3_settings c3_ds c3_row c3_row_mem

/-! ## Claim C5 -/

theorem compute_row_e_ticker (ds : DataSource) (asset : AssetConfig) (row : AssetRow)
    (h : compute_row_e ds asset = Except.ok row) : row.ticker = asset.ticker := by
  unfold compute_row_e at h
  cases hb : asset.benchmark with
  | true =>
    rw [hb] at h
    simp only [if_true] at h
    cases hd : ds.bench asset with
    | ok bd =>
      rw [hd] at h
      simp only [Except.map, Except.ok.injEq] at h
      rw [← h]
      simp [compute_benchmark]
    | error e =>
      rw [hd] at h
      simp [Except.map] at h
  | false =>
    rw [hb] at h
    simp only [Bool.false_eq_true, if_false] at h
    cases hd : ds.company asset.ticker with
    | ok m =>
      rw [hd] at h
      simp only [Except.map, Except.ok.injEq] at h
      rw [← h]
      simp [compute_company]
    | error e =>
      rw [hd] at h
      simp [Except.map] at h

/-- C5: the snapshot has exactly one row per resolved descriptor, in
universe order with matching tickers, and a descriptor whose computation
raises yields a placeholder row carrying the error text, null score_total,
grade "N/A", assessment "N/A" and opportunity_score -999.0. -/
theorem C5_placeholder_rows (settings : Settings) (ds : DataSource) :
    (snapshot_assets settings ds).length = (resolve_assets settings).length ∧
    ∀ i (hi : i < (resolve_assets settings).length)
      (hj : i < (snapshot_assets settings ds).length),
      ((snapshot_assets settings ds).get ⟨i, hj⟩).ticker =
        ((resolve_assets settings).get ⟨i, hi⟩).ticker ∧
      ∀ e, compute_row_e ds ((resolve_assets settings).get ⟨i, hi⟩) = Except.error e →
        (snapshot_assets settings ds).get ⟨i, hj⟩ =
          placeholder_row ((resolve_assets settings).get ⟨i, hi⟩) e ∧
        ((snapshot_assets settings ds).get ⟨i, hj⟩).error = some e ∧
        ((snapshot_assets settings ds).get ⟨i, hj⟩).score_total = none ∧
        ((snapshot_assets settings ds).get ⟨i, hj⟩).grade = "N/A" ∧
        ((snapshot_assets settings ds).get ⟨i, hj⟩).assessment = "N/A" ∧
        ((snapshot_assets settings ds).get ⟨i, hj⟩).opportunity_score = -999 := by
  refine ⟨by simp [snapshot_assets], ?_⟩
  intro i hi hj
  have hget : (snapshot_assets settings ds).get ⟨i, hj⟩ =
      (match compute_row_e ds ((resolve_assets settings).get ⟨i, hi⟩) with
        | Except.ok row => row
        | Except.error e => placeholder_row ((resolve_assets settings).get ⟨i, hi⟩) e) := by
    unfold snapshot_assets
    rw [List.get_map]
  constructor
  · rw [hget]
    cases h : compute_row_e ds ((resolve_assets settings).get ⟨i, hi⟩) with
    | ok row => exact compute_row_e_ticker ds _ row h
    | error e => simp [placeholder_row]
  · intro e he
    rw [hget, he]
    exact ⟨rfl, rfl, rfl, rfl, rfl, rfl⟩

/-- C5 witness: with one custom asset whose data source raises "boom", the
snapshot holds exactly its placeholder row. -/
theorem C5_witness :
    (snapshot_assets c3_settings c3_ds).length = (resolve_assets c3_settings).length ∧
    ((snapshot_assets c3_settings c3_ds).get ⟨0, by decide⟩).error = some "boom" ∧
    ((snapshot_assets c3_settings c3_ds).get ⟨0, by decide⟩).opportunity_score = -999 := by
  refine ⟨(C5_placeholder_rows c3_settings c3_ds).1, ?_, ?_⟩
  · exact (((C5_placeholder_rows c3_settings c3_ds).2 0 (by decide) (by decide)).2
      "boom" rfl).2.1
  · exact (((C5_placeholder_rows c3_settings c3_ds).2 0 (by decide) (by decide)).2
      "boom" rfl).2.2.2.2.2

/-! ## Claim C6 -/

theorem opportunity_ge_generic (s b : ℚ) (hs : 0 ≤ s) (hb : -20 ≤ b) :
    (-21 : ℚ) ≤ round_to 1 (s + b) := by
  have := round_to_gt 1 (s + b)
  norm_num at this
  linarith

theorem compute_company_opportunity_ge (asset : AssetConfig) (m : RawMetrics) :
    (-21 : ℚ) ≤ (compute_company asset m).opportunity_score := by
  simp only [compute_company]
  apply opportunity_ge_generic _ _ (compute_score_total_nonneg m)
  split_ifs <;> norm_num

theorem ranked_rows_mem (assets : List AssetRow) (r : AssetRow)
    (hr : r ∈ ranked_rows assets) : r ∈ assets ∧ r.benchmark = false := by
  unfold ranked_rows at hr
  have hmem := (List.perm_insertionSort rank_ge _).mem_iff.mp hr
  rw [List.mem_filter] at hmem
  exact ⟨hmem.1, by simpa using hmem.2⟩

theorem snapshot_real_row_opportunity (settings : Settings) (ds : DataSource) (r : AssetRow)
    (hr : r ∈ snapshot_assets settings ds) (he : r.error = none) (hb : r.benchmark = false) :
    (-999 : ℚ) < r.opportunity_score := by
  rcases snapshot_assets_cases settings ds r hr with
    ⟨asset, e, _, rfl⟩ | ⟨asset, m, _, _, rfl⟩ | ⟨asset, b, _, _, rfl⟩
  · simp [placeholder_row] at he
  · have := compute_company_opportunity_ge asset m
    linarith
  · simp [compute_benchmark] at hb

/-- C6: in the ranked opportunity list of any snapshot, a placeholder row
(opportunity_score -999.0) never appears ahead of a successfully computed
company row: every real company row's opportunity score is at least -21,
hence greater than -999, and the list is sorted descending. -/
theorem C6_ranking_placeholder_last (settings : Settings) (ds : DataSource) (i j : ℕ)
    (hi : i < (ranked_rows (snapshot_assets settings ds)).length)
    (hj : j < (ranked_rows (snapshot_assets settings ds)).length)
    (hij : i < j)
    (hreal : ((ranked_rows (snapshot_assets settings ds)).get ⟨j, hj⟩).error = none) :
    ((ranked_rows (snapshot_assets settings ds)).get ⟨i, hi⟩).opportunity_score ≠ -999 := by
  have hsorted : List.Sorted rank_ge (ranked_rows (snapshot_assets settings ds)) := by
    unfold ranked_rows
    exact List.sorted_insertionSort rank_ge _
  have hrel : rank_ge ((ranked_rows (snapshot_assets settings ds)).get ⟨i, hi⟩)
      ((ranked_rows (snapshot_assets settings ds)).get ⟨j, hj⟩) :=
    hsorted.rel_get_of_lt (by exact hij)
  have hjmem := List.get_mem (ranked_rows (snapshot_assets settings ds)) j hj
  obtain ⟨hjassets, hjbench⟩ := ranked_rows_mem _ _ hjmem
  have hjop : (-999 : ℚ) <
      ((ranked_rows (snapshot_assets settings ds)).get ⟨j, hj⟩).opportunity_score :=
    snapshot_real_row_opportunity settings ds _ hjassets hreal hjbench
  have hle : ((ranked_rows (snapshot_assets settings ds)).get ⟨j, hj⟩).opportunity_score ≤
      ((ranked_rows (snapshot_assets settings ds)).get ⟨i, hi⟩).opportunity_score := by
    unfold rank_ge rank_key at hrel
    rcases hrel with h | ⟨h1, _⟩
    · exact le_of_lt h
    · exact le_of_eq h1
  intro hcontra
  rw [hcontra] at hle
  linarith

/-- Scenario data of the C6 witness: two custom assets, both computed
successfully from empty metrics. -/
def c6_settings : Settings :=
  { list_mode := some "custom", custom_tickers := some "AAA,BBB",
    include_benchmarks := some false }

def c6_ds : DataSource :=
  { company := fun _ => Except.ok {}, bench := fun _ => Except.error "no benchmarks" }

theorem c6_ranked_len : (ranked_rows (snapshot_assets c6_settings c6_ds)).length = 2 := by
  unfold ranked_rows
  rw [(List.perm_insertionSort rank_ge _).length_eq]
  rfl

theorem c6_all_real : ∀ r ∈ ranked_rows (snapshot_assets c6_settings c6_ds),
    r.error = none := by
  intro r hr
  obtain ⟨hmem, _⟩ := ranked_rows_mem _ _ hr
  rw [show snapshot_assets c6_settings c6_ds =
    [compute_company { name := "AAA", ticker := "AAA", index_name := "Custom" } {},
     compute_company { name := "BBB", ticker := "BBB", index_name := "Custom" } {}] from rfl]
    at hmem
  simp only [List.mem_cons, List.not_mem_nil, or_false] at hmem
  rcases hmem with h | h <;> (rw [h]; rfl)

/-- C6 witness: the theorem applied to the two-real-row snapshot at indices
0 < 1. -/
theorem C6_witness :
    ((ranked_rows (snapshot_assets c6_settings c6_ds)).get
      ⟨0, by rw [c6_ranked_len]; norm_num⟩).opportunity_score ≠ -999 :=
  C6_ranking_placeholder_last c6_settings c6_ds 0 1
    (by rw [c6_ranked_len]; norm_num) (by rw [c6_ranked_len]; norm_num) (by norm_num)
    (c6_all_real _ (List.get_mem _ 1 (by rw [c6_ranked_len]; norm_num)))

/-! ## Claim C10 -/

theorem snapshot_row_assessment (settings : Settings) (ds : DataSource) (r : AssetRow)
    (hr : r ∈ snapshot_assets settings ds) :
    r.assessment = "Undervalued" ∨ r.assessment = "Fair" ∨ r.assessment = "Overvalued" ∨
      r.assessment = "N/A" := by
  rcases snapshot_assets_cases settings ds r hr with
    ⟨asset, e, _, rfl⟩ | ⟨asset, m, _, _, rfl⟩ | ⟨asset, b, _, _, rfl⟩
  · right; right; right; rfl
  · simp only [compute_company]
    exact valuation_label_mem _ _
  · simp only [compute_benchmark]
    exact valuation_label_mem _ _

theorem countP_four_partition (l : List AssetRow)
    (h : ∀ r ∈ l, r.assessment = "Undervalued" ∨ r.assessment = "Fair" ∨
      r.assessment = "Overvalued" ∨ r.assessment = "N/A") :
    l.countP (fun a => a.assessment == "Undervalued") +
      l.countP (fun a => a.assessment == "Fair") +
      l.countP (fun a => a.assessment == "Overvalued") +
      l.countP (fun a => a.assessment == "N/A") = l.length := by
  induction l with
  | nil => simp
  | cons hd tl ih =>
    have hhd := h hd (by simp)
    have htl := ih (fun r hr => h r (by simp [hr]))
    simp only [List.countP_cons, List.length_cons]
    rcases hhd with h1 | h1 | h1 | h1 <;> rw [h1] <;> simp <;> omega

/-- C10: every snapshot row's assessment is one of the four labels, and the
four summary counts partition the asset list: undervalued + fair +
overvalued + na equals the number of asset rows. -/
theorem C10_assessment_partition (settings : Settings) (ds : DataSource) :
    (∀ r ∈ (build_snapshot settings ds).assets,
      r.assessment = "Undervalued" ∨ r.assessment = "Fair" ∨ r.assessment = "Overvalued" ∨
        r.assessment = "N/A") ∧
    (build_snapshot settings ds).summary.undervalued +
      (build_snapshot settings ds).summary.fair +
      (build_snapshot settings ds).summary.overvalued +
      (build_snapshot settings ds).summary.na =
      (build_snapshot settings ds).assets.length := by
  constructor
  · intro r hr
    exact snapshot_row_assessment settings ds r (by simpa [build_snapshot] using hr)
  · simp only [build_snapshot]
    exact countP_four_partition _ (fun r hr => snapshot_row_assessment settings ds r hr)

/-- C10 witness: the theorem applied to the concrete failing snapshot. -/
theorem C10_witness :
    (c3_row.assessment = "Undervalued" ∨ c3_row.assessment = "Fair" ∨
      c3_row.assessment = "Overvalued" ∨ c3_row.assessment = "N/A") ∧
    (build_snapshot c3_settings c3_ds).summary.undervalued +
      (build_snapshot c3_settings c3_ds).summary.fair +
      (build_snapshot c3_settings c3_ds).summary.overvalued +
      (build_snapshot c3_settings c3_ds).summary.na =
      (build_snapshot c3_settings c3_ds).assets.length :=
  ⟨(C10_assessment_partition c3_settings c3_ds).1 c3_row c3_row_mem,
   (C10_assessment_partition c3_settings c3_ds).2⟩

/-! ## Earnings-date resolver (engine `_next_earnings_from_info`) -/

/-- The `earningsDate` field of the quote info: Python checks
`isinstance(..., list)` and otherwise coerces the scalar. -/
inductive EarningsDateVal where
  | list (items : List (Option ℤ))
  | scalar (v : Option ℤ)

/-- Quote-info fields the resolver reads.  Each `Option ℤ` is the result of
`_safe_int` on the raw field (none = missing or unparseable). -/
structure QuoteInfo where
  earningsTimestampStart : Option ℤ := none
  earningsTimestamp : Option ℤ := none
  earningsTimestampEnd : Option ℤ := none
  earningsDate : EarningsDateVal := EarningsDateVal.scalar none

/-- Candidate epochs, collected in source order (the three explicit keys,
then the earningsDate list or scalar), keeping only positive values. -/
def candidate_list (info : QuoteInfo) : List ℤ :=
  (([info.earningsTimestampStart, info.earningsTimestamp,
      info.earningsTimestampEnd].filterMap id).filter (fun ts => decide (0 < ts))) ++
  (match info.earningsDate with
    | EarningsDateVal.list items => (items.filterMap id).filter (fun ts => decide (0 < ts))
    | EarningsDateVal.scalar v => (([v]).filterMap id).filter (fun ts => decide (0 < ts)))

/-- Minimum of a list (Python `sorted(xs)[0]`), none on empty. -/
def list_min : List ℤ → Option ℤ
  | [] => none
  | x :: xs => some (xs.foldl min x)

/-- Maximum of a list (Python `sorted(xs)[-1]`), none on empty. -/
def list_max : List ℤ → Option ℤ
  | [] => none
  | x :: xs => some (xs.foldl max x)

theorem foldl_min_le (xs : List ℤ) (x : ℤ) :
    xs.foldl min x ≤ x ∧ ∀ y ∈ xs, xs.foldl min x ≤ y := by
  induction xs generalizing x with
  | nil => simp
  | cons a as ih =>
    simp only [List.foldl_cons]
    obtain ⟨h1, h2⟩ := ih (min x a)
    refine ⟨le_trans h1 (min_le_left x a), ?_⟩
    intro y hy
    rcases List.mem_cons.mp hy with rfl | hy
    · exact le_trans h1 (min_le_right x _)
    · exact h2 y hy

theorem foldl_min_mem (xs : List ℤ) (x : ℤ) : xs.foldl min x = x ∨ xs.foldl min x ∈ xs := by
  induction xs generalizing x with
  | nil => simp
  | cons a as ih =>
    simp only [List.foldl_cons]
    rcases ih (min x a) with h | h
    · rcases le_total x a with hxa | hxa
      · left
        rw [h, min_eq_left hxa]
      · right
        rw [h, min_eq_right hxa]
        exact List.mem_cons_self a as
    · right
      exact List.mem_cons_of_mem a h

theorem foldl_max_ge (xs : List ℤ) (x : ℤ) :
    x ≤ xs.foldl max x ∧ ∀ y ∈ xs, y ≤ xs.foldl max x := by
  induction xs generalizing x with
  | nil => simp
  | cons a as ih =>
    simp only [List.foldl_cons]
    obtain ⟨h1, h2⟩ := ih (max x a)
    refine ⟨le_trans (le_max_left x a) h1, ?_⟩
    intro y hy
    rcases List.mem_cons.mp hy with rfl | hy
    · exact le_trans (le_max_right x _) h1
    · exact h2 y hy

theorem foldl_max_mem (xs : List ℤ) (x : ℤ) : xs.foldl max x = x ∨ xs.foldl max x ∈ xs := by
  induction xs generalizing x with
  | nil => simp
  | cons a as ih =>
    simp only [List.foldl_cons]
    rcases ih (max x a) with h | h
    · rcases le_total x a with hxa | hxa
      · right
        rw [h, max_eq_right hxa]
        exact List.mem_cons_self a as
      · left
        rw [h, max_eq_left hxa]
    · right
      exact List.mem_cons_of_mem a h

theorem list_min_spec (l : List ℤ) (hne : l ≠ []) :
    ∃ v, list_min l = some v ∧ v ∈ l ∧ ∀ y ∈ l, v ≤ y := by
  cases l with
  | nil => simp at hne
  | cons x xs =>
    refine ⟨xs.foldl min x, rfl, ?_, ?_⟩
    · rcases foldl_min_mem xs x with h | h
      · rw [h]
        exact List.mem_cons_self x xs
      · exact List.mem_cons_of_mem x h
    · intro y hy
      obtain ⟨h1, h2⟩ := foldl_min_le xs x
      rcases List.mem_cons.mp hy with rfl | hy
      · exact h1
      · exact h2 y hy

theorem list_max_spec (l : List ℤ) (hne : l ≠ []) :
    ∃ v, list_max l = some v ∧ v ∈ l ∧ ∀ y ∈ l, y ≤ v := by
  cases l with
  | nil => simp at hne
  | cons x xs =>
    refine ⟨xs.foldl max x, rfl, ?_, ?_⟩
    · rcases foldl_max_mem xs x with h | h
      · rw [h]
        exact List.mem_cons_self x xs
      · exact List.mem_cons_of_mem x h
    · intro y hy
      obtain ⟨h1, h2⟩ := foldl_max_ge xs x
      rcases List.mem_cons.mp hy with rfl | hy
      · exact h1
      · exact h2 y hy

/-! ### ISO-8601 UTC rendering (datetime.fromtimestamp(ts, utc).isoformat()) -/

def pad2 (n : ℕ) : String := if n < 10 then "0" ++ toString n else toString n

def pad4 (n : ℤ) : String :=
  if n < 10 then "000" ++ toString n
  else if n < 100 then "00" ++ toString n
  else if n < 1000 then "0" ++ toString n
  else toString n

/-- Gregorian civil date from days since the Unix epoch (standard
era-based algorithm); returns (year, month, day). -/
def civil_from_days (z0 : ℤ) : ℤ × ℤ × ℤ :=
  let z := z0 + 719468
  let era := z.ediv 146097
  let doe := (z - era * 146097).toNat
  let yoe := (doe - doe / 1460 + doe / 36524 - doe / 146096) / 365
  let doy := doe - (365 * yoe + yoe / 4 - yoe / 100)
  let mp := (5 * doy + 2) / 153
  let d := doy - (153 * mp + 2) / 5 + 1
  let m := if mp < 10 then mp + 3 else mp - 9
  let y : ℤ := (yoe : ℤ) + era * 400
  (if m ≤ 2 then y + 1 else y, (m : ℤ), (d : ℤ))

/-- ISO-8601 rendering of an epoch second in UTC, as Python's
`datetime.fromtimestamp(ts, tz=timezone.utc).isoformat()` renders an
integral timestamp. -/
def iso_utc (t : ℤ) : String :=
  let days := t.ediv 86400
  let secs := (t.emod 86400).toNat
  let ymd := civil_from_days days
  pad4 ymd.1 ++ "-" ++ pad2 ymd.2.1.toNat ++ "-" ++ pad2 ymd.2.2.toNat ++ "T" ++
    pad2 (secs / 3600) ++ ":" ++ pad2 (secs / 60 % 60) ++ ":" ++ pad2 (secs % 60) ++ "+00:00"

/-- Engine `_next_earnings_from_info` with the current time as an explicit
input.  Python sorts the future-or-now candidates ascending and takes the
first (their minimum), else takes the last of the sorted candidates (their
maximum). -/
def next_earnings_from_info (info : QuoteInfo) (now_ts : ℤ) : String × Option ℤ :=
  let candidates := candidate_list info
  if candidates = [] then ("", none)
  else
    let future := candidates.filter (fun ts => decide (now_ts ≤ ts))
    let chosen := match list_min future with
      | some v => v
      | none => (list_max candidates).getD 0
    (iso_utc chosen, some chosen)

/-! ## Claim C4 -/

/-- C4: with no candidates the resolver returns (empty string, null); with
at least one candidate at or after the current time it returns the earliest
such candidate; with all candidates strictly in the past it returns the
latest candidate; the chosen epoch is returned with its ISO-8601 UTC
rendering. -/
theorem C4_earnings_resolver (info : QuoteInfo) (now_ts : ℤ) :
    (candidate_list info = [] → next_earnings_from_info info now_ts = ("", none)) ∧
    (∀ t ∈ candidate_list info, now_ts ≤ t →
      ∃ ch, next_earnings_from_info info now_ts = (iso_utc ch, some ch) ∧
        ch ∈ candidate_list info ∧ now_ts ≤ ch ∧
        ∀ u ∈ candidate_list info, now_ts ≤ u → ch ≤ u) ∧
    ((candidate_list info ≠ [] ∧ ∀ t ∈ candidate_list info, t < now_ts) →
      ∃ ch, next_earnings_from_info info now_ts = (iso_utc ch, some ch) ∧
        ch ∈ candidate_list info ∧ ∀ u ∈ candidate_list info, u ≤ ch) := by
  refine ⟨?_, ?_, ?_⟩
  · intro h
    simp [next_earnings_from_info, h]
  · intro t ht hnow
    have hne : candidate_list info ≠ [] := by
      intro h
      rw [h] at ht
      cases ht
    have hfut_ne : (candidate_list info).filter (fun ts => decide (now_ts ≤ ts)) ≠ [] := by
      intro h
      have hmem : t ∈ (candidate_list info).filter (fun ts => decide (now_ts ≤ ts)) :=
        List.mem_filter.mpr ⟨ht, by simpa using hnow⟩
      rw [h] at hmem
      cases hmem
    obtain ⟨v, hv, hvmem, hvle⟩ := list_min_spec _ hfut_ne
    refine ⟨v, ?_, (List.mem_filter.mp hvmem).1, by simpa using (List.mem_filter.mp hvmem).2, ?_⟩
    · unfold next_earnings_from_info
      rw [if_neg hne]
      dsimp only
      rw [hv]
    · intro u hu hnu
      exact hvle u (List.mem_filter.mpr ⟨hu, by simpa using hnu⟩)
  · rintro ⟨hne, hpast⟩
    have hfut : (candidate_list info).filter (fun ts => decide (now_ts ≤ ts)) = [] := by
      apply List.filter_eq_nil_iff.mpr
      intro a ha
      simpa using not_le.mpr (hpast a ha)
    obtain ⟨v, hv, hvmem, hvge⟩ := list_max_spec _ hne
    refine ⟨v, ?_, hvmem, hvge⟩
    unfold next_earnings_from_info
    rw [if_neg hne]
    dsimp only
    rw [hfut]
    simp only [list_min, hv, Option.getD_some]

/-- Quote info of the C4 witness: one future candidate (150) from the
explicit key and one past candidate (50) from the scalar earningsDate. -/
def c4_info : QuoteInfo :=
  { earningsTimestamp := some 150, earningsDate := EarningsDateVal.scalar (some 50) }

/-- C4 witness: the theorem applied at the concrete info with now = 100. -/
theorem C4_witness :
    ∃ ch, next_earnings_from_info c4_info 100 = (iso_utc ch, some ch) ∧
      ch ∈ candidate_list c4_info ∧ 100 ≤ ch ∧
      ∀ u ∈ candidate_list c4_info, 100 ≤ u → ch ≤ u :=
  (C4_earnings_resolver c4_info 100).2.1 150 (by decide) (by decide)
